import Mathlib

/-!
Shallow embedding of the FiLiP QuantumLeap client pagination engine
(filip/clients/ngsi_v2/quantumleap.py) and of the simple query language
(filip/core/simple_query_language.py), together with theorems about the
page loop, the page-merge algorithms, statement validation and query
building.
-/

/-- Outcome of one HTTP page fetch, as observed by the page loop of
QuantumLeapClient.query_builder: either an ok response (status < 400)
carrying a decoded JSON body, or a failed response carrying the HTTP
status code and the value of the error field of its JSON body. -/
inductive PageResult (β : Type) where
  | ok (body : β)
  | fail (status : Nat) (errorField : Option String)
deriving DecidableEq

/-- True when the fetch produced an ok response. -/
def PageResult.isOk {β : Type} : PageResult β → Bool
  | .ok _ => true
  | .fail _ _ => false

/-- A raised requests RequestException, identified by the HTTP status code
of the response and the error field of its JSON body. -/
structure RequestError where
  status : Nat
  errorField : Option String
deriving DecidableEq

/-- Result of running the page loop: the offsets of the page requests it
issued, in order, and either the collected page bodies (on normal or
sentinel termination) or the error it raised. -/
structure LoopResult (β : Type) where
  offsetsTried : List Nat
  result : Except RequestError (List β)

/-- Maximum number of entries requested per page
(max_entries_per_request = 5 in query_builder). -/
def max_entries_per_request : Nat := 5

/-- Embeds the pagination while-loop of QuantumLeapClient.query_builder
(quantumleap.py lines 362-385): while offset < limit, issue the page
request at the current offset; on an ok response append the body to the
collected list and advance the offset by max_entries_per_request; on a
failed response, stop quietly (returning the collected bodies) when the
status is 404, the body error field equals "Not Found" and at least one
page was already collected, and otherwise re-raise the error.  The limit
is the finite caller limit; the None-means-unbounded substitution of the
source is outside this embedding. -/
def query_builder {β : Type} (fetch : Nat → PageResult β)
    (limit offset : Nat) (acc : List β) : LoopResult β :=
  if _h : offset < limit then
    match fetch offset with
    | .ok body =>
        let rest := query_builder fetch limit
          (offset + max_entries_per_request) (acc ++ [body])
        { rest with offsetsTried := offset :: rest.offsetsTried }
    | .fail status errorField =>
        if status = 404 ∧ errorField = some "Not Found" ∧ 0 < acc.length then
          { offsetsTried := [offset], result := .ok acc }
        else
          { offsetsTried := [offset], result := .error ⟨status, errorField⟩ }
  else
    { offsetsTried := [], result := .ok acc }
termination_by limit - offset
decreasing_by simp [max_entries_per_request]; omega

example :
    (query_builder (fun _ => PageResult.ok 7) 13 0 []).offsetsTried
      = [0, 5, 10] := by
  simp [query_builder, max_entries_per_request]

example :
    (query_builder (fun _ => PageResult.ok 7) 0 0 ([] : List Nat)).offsetsTried
      = [] := by
  simp [query_builder]

example :
    (query_builder
        (fun o => if o = 0 then PageResult.ok 7
                  else PageResult.fail 404 (some "Not Found"))
        20 0 []).result = .ok [7] := by
  simp [query_builder, max_entries_per_request]

/-- When every page fetch returns an ok response, the page loop issues
requests at offsets offset, offset+5, offset+10, ..., one per started
iteration, until the offset reaches the limit. -/
lemma query_builder_offsets_all_ok {β : Type} (fetch : Nat → PageResult β)
    (hall : ∀ o, (fetch o).isOk = true) :
    ∀ d limit offset acc, limit - offset = d →
      (query_builder fetch limit offset acc).offsetsTried
        = (List.range ((limit - offset + 4) / 5)).map (fun i => offset + 5 * i) := by
  intro d
  induction d using Nat.strong_induction_on with
  | _ d ih =>
    intro limit offset acc hd
    rw [query_builder]
    split
    · rename_i hlt
      cases hfo : fetch offset with
      | ok body =>
        simp only []
        rw [ih (limit - (offset + max_entries_per_request))
              (by simp only [max_entries_per_request]; omega)
              limit (offset + max_entries_per_request) (acc ++ [body]) rfl]
        simp only [max_entries_per_request]
        have hn : (limit - offset + 4) / 5 = (limit - (offset + 5) + 4) / 5 + 1 := by
          omega
        rw [hn, List.range_succ_eq_map, List.map_cons, List.map_map]
        have hfun : ((fun i => offset + 5 * i) ∘ Nat.succ)
            = fun i => offset + 5 + 5 * i := by
          funext i
          simp only [Function.comp]
          omega
        simp only [Nat.mul_zero, Nat.add_zero, hfun]
      | fail status errorField =>
        have := hall offset
        rw [hfo] at this
        simp [PageResult.isOk] at this
    · rename_i hge
      have : limit - offset + 4 < 5 := by omega
      simp [Nat.div_eq_of_lt this]

/-- C1: a page fetch failing with HTTP 404 and JSON error field "Not Found"
terminates the page loop without raising and returns the pages collected so
far when at least one page was already collected; the same failure with no
page collected yet, and any other request failure, make the loop raise the
error to the caller. -/
theorem query_builder_not_found_sentinel {β : Type} (fetch : Nat → PageResult β)
    (limit offset : Nat) (acc : List β) :
    (fetch offset = .fail 404 (some "Not Found") → offset < limit →
      ((acc ≠ [] → query_builder fetch limit offset acc
          = { offsetsTried := [offset], result := .ok acc }) ∧
       (acc = [] → (query_builder fetch limit offset acc).result
          = .error ⟨404, some "Not Found"⟩)))
    ∧ (∀ status ef, fetch offset = .fail status ef →
        ¬(status = 404 ∧ ef = some "Not Found") → offset < limit →
        (query_builder fetch limit offset acc).result = .error ⟨status, ef⟩) := by
  constructor
  · intro hf hlt
    constructor
    · intro hne
      rw [query_builder, dif_pos hlt, hf]
      have hpos : 0 < acc.length := List.length_pos.mpr hne
      simp [hpos]
    · intro hemp
      subst hemp
      rw [query_builder, dif_pos hlt, hf]
      simp
  · intro status ef hf hns hlt
    rw [query_builder, dif_pos hlt, hf]
    have : ¬(status = 404 ∧ ef = some "Not Found" ∧ 0 < acc.length) := by
      intro hc
      exact hns ⟨hc.1, hc.2.1⟩
    simp [this]

theorem query_builder_not_found_sentinel_wit :
    (query_builder (fun _ => PageResult.fail 404 (some "Not Found")) 10 5 [1]
        = { offsetsTried := [5], result := .ok [1] })
    ∧ ((query_builder (fun _ => PageResult.fail 404 (some "Not Found"))
          10 0 ([] : List Nat)).result = .error ⟨404, some "Not Found"⟩)
    ∧ ((query_builder (fun _ => PageResult.fail 500 none)
          10 0 ([] : List Nat)).result = .error ⟨500, none⟩) := by
  refine ⟨?_, ?_, ?_⟩
  · exact ((query_builder_not_found_sentinel
      (fun _ => PageResult.fail 404 (some "Not Found")) 10 5 [1]).1
        rfl (by omega)).1 (by simp)
  · exact ((query_builder_not_found_sentinel
      (fun _ => PageResult.fail 404 (some "Not Found")) 10 0 []).1
        rfl (by omega)).2 rfl
  · exact (query_builder_not_found_sentinel
      (fun _ => PageResult.fail 500 none) 10 0 []).2 500 none rfl
        (by simp) (by omega)

/-- C2: for every limit of the form 5 * k + r with 0 < r < 5
(max_entries_per_request = 5), starting offset 0 and every page fetch
succeeding, the page loop issues exactly k + 1 page requests, at offsets
0, 5, 10, ..., 5 * k, in that order. -/
theorem query_builder_page_offsets {β : Type} (fetch : Nat → PageResult β)
    (k r limit : Nat) (hall : ∀ o, (fetch o).isOk = true)
    (hlim : limit = 5 * k + r) (hr0 : 0 < r) (hr5 : r < 5) :
    (query_builder fetch limit 0 []).offsetsTried
        = (List.range (k + 1)).map (fun i => 5 * i)
    ∧ (query_builder fetch limit 0 []).offsetsTried.length = k + 1 := by
  have h := query_builder_offsets_all_ok fetch hall (limit - 0) limit 0 [] rfl
  have hn : (limit - 0 + 4) / 5 = k + 1 := by omega
  rw [hn] at h
  constructor
  · rw [h]
    simp
  · rw [h]
    simp

theorem query_builder_page_offsets_wit :
    (query_builder (fun _ => PageResult.ok 7) 13 0 []).offsetsTried
        = [0, 5, 10]
    ∧ (query_builder (fun _ => PageResult.ok 7) 13 0 []).offsetsTried.length
        = 3 := by
  have h := query_builder_page_offsets (fun _ => PageResult.ok 7) 2 3 13
    (fun _ => rfl) rfl (by omega) (by omega)
  exact ⟨h.1.trans (by decide), h.2⟩

/-- C3 counterexample: with limit 0 (a non-negative limit at most 5) and
every fetch succeeding, the page loop issues zero page requests, not
exactly one. -/
theorem query_builder_zero_limit_cex :
    ¬ ((query_builder (fun _ => PageResult.ok 0) 0 0 []).offsetsTried.length
        = 1) := by
  rw [query_builder]
  simp

/-- C3 amended: for every positive limit at most max_entries_per_request
(= 5), starting offset 0 and the fetch succeeding, the page loop issues
exactly one page request, at offset 0. -/
theorem query_builder_single_page_pos_limit {β : Type}
    (fetch : Nat → PageResult β) (limit : Nat)
    (hall : ∀ o, (fetch o).isOk = true)
    (h1 : 1 ≤ limit) (h5 : limit ≤ 5) :
    (query_builder fetch limit 0 []).offsetsTried = [0] := by
  have h := query_builder_offsets_all_ok fetch hall (limit - 0) limit 0 [] rfl
  have hn : (limit - 0 + 4) / 5 = 1 := by omega
  rw [hn] at h
  rw [h]
  decide

theorem query_builder_single_page_pos_limit_wit :
    (query_builder (fun _ => PageResult.ok 7) 4 0 []).offsetsTried = [0] :=
  query_builder_single_page_pos_limit (fun _ => PageResult.ok 7) 4
    (fun _ => rfl) (by omega) (by omega)

/-- Modelled from the spec: the AttributeValues record of the data model
(filip.models.ngsi_v2.timeseries, not under src): an attribute name and an
ordered sequence of scalar-or-null values. -/
structure AttributeValues where
  attrName : String
  values : List (Option String)
deriving DecidableEq

/-- Modelled from the spec: the TimeSeries record of the data model
(filip.models.ngsi_v2.timeseries, not under src): optional entity id and
type, an ordered index of timestamps, and an ordered sequence of
AttributeValues. -/
structure TimeSeries where
  entityId : Option String
  entityType : Option String
  index : List String
  attributes : List AttributeValues
deriving DecidableEq

/-- Modelled from the spec: the TimeSeries extend merge used by the
response assembly (filip.models.ngsi_v2.timeseries, not under src):
appends the other page's index entries and each matching attribute's
values entries to the running TimeSeries, in page order. -/
def TimeSeries.extend (ts other : TimeSeries) : TimeSeries :=
  { ts with
    index := ts.index ++ other.index,
    attributes := ts.attributes.zipWith
      (fun a b => { a with values := a.values ++ b.values })
      other.attributes }

/-- The parallel-array invariant of the data model: every attribute's
values sequence has the same length as the index. -/
def TimeSeries.aligned (ts : TimeSeries) : Prop :=
  ∀ a ∈ ts.attributes, a.values.length = ts.index.length

instance (ts : TimeSeries) : Decidable ts.aligned := by
  unfold TimeSeries.aligned
  infer_instance

/-- Embeds the page-merge of QuantumLeapClient.get_entity_by_id
(quantumleap.py lines 539-544): the TimeSeries parsed from the first page
body is extended by the TimeSeries parsed from each later page body, in
page order.  Parsing of the already-decoded page bodies is modelled as the
identity. -/
def get_entity_by_id_merge (first : TimeSeries) (rest : List TimeSeries) :
    TimeSeries :=
  rest.foldl TimeSeries.extend first

/-- One step of the by-type chunk merge of
QuantumLeapClient.get_entity_by_type and get_entity_values_by_type
(quantumleap.py lines 816-822 and 870-876): zip pairs the per-entity
fragments of the later chunk with the running TimeSeries list positionally
up to the shorter length, extends each paired running series, and leaves
the remaining running series unchanged. -/
def merge_chunk_step (res chunk : List TimeSeries) : List TimeSeries :=
  res.zipWith TimeSeries.extend chunk ++ res.drop chunk.length

/-- Embeds the full by-type merge of QuantumLeapClient.get_entity_by_type
(quantumleap.py lines 812-822): one TimeSeries per fragment of the first
page body, in order, then each later chunk merged by merge_chunk_step. -/
def get_entity_by_type_merge (first : List TimeSeries)
    (rest : List (List TimeSeries)) : List TimeSeries :=
  rest.foldl merge_chunk_step first

lemma extend_index_length (a b : TimeSeries) :
    (a.extend b).index.length = a.index.length + b.index.length := by
  simp [TimeSeries.extend]

lemma extend_attributes_length (a b : TimeSeries)
    (h : b.attributes.length = a.attributes.length) :
    (a.extend b).attributes.length = a.attributes.length := by
  simp [TimeSeries.extend, h]

lemma zipWith_append_values_length {A B : List AttributeValues} {n m : Nat}
    (hA : ∀ a ∈ A, a.values.length = n) (hB : ∀ b ∈ B, b.values.length = m) :
    ∀ c ∈ A.zipWith
        (fun a b => { a with values := a.values ++ b.values }) B,
      c.values.length = n + m := by
  induction A generalizing B with
  | nil => simp
  | cons a A ih =>
    cases B with
    | nil => simp
    | cons b B =>
      intro c hc
      rw [List.zipWith_cons_cons, List.mem_cons] at hc
      rcases hc with rfl | hc
      · simp [hA a (by simp), hB b (by simp)]
      · exact ih (fun x hx => hA x (by simp [hx]))
          (fun x hx => hB x (by simp [hx])) c hc

lemma extend_aligned (a b : TimeSeries) (ha : a.aligned) (hb : b.aligned) :
    (a.extend b).aligned := by
  intro c hc
  simp only [TimeSeries.extend] at hc ⊢
  rw [List.length_append]
  exact zipWith_append_values_length ha hb c hc

/-- C4: merging n page bodies of a single-entity query whose index arrays
have lengths l1..ln yields a TimeSeries whose index length is l1+...+ln,
and every attribute's values sequence in the result has that same length:
get_entity_by_id_merge preserves the parallel-array invariant. -/
theorem get_entity_by_id_merge_aligned (first : TimeSeries)
    (rest : List TimeSeries) (h1 : first.aligned)
    (h2 : ∀ q ∈ rest, q.aligned) :
    (get_entity_by_id_merge first rest).index.length
        = ((first :: rest).map (fun t => t.index.length)).sum
    ∧ (get_entity_by_id_merge first rest).aligned := by
  induction rest generalizing first with
  | nil => simpa [get_entity_by_id_merge] using h1
  | cons q rest ih =>
    have hq : q.aligned := h2 q (by simp)
    have hstep : (first.extend q).aligned := extend_aligned first q h1 hq
    have ihq := ih (first.extend q) hstep (fun p hp => h2 p (by simp [hp]))
    have hunf : get_entity_by_id_merge first (q :: rest)
        = get_entity_by_id_merge (first.extend q) rest := rfl
    rw [hunf]
    refine ⟨?_, ihq.2⟩
    rw [ihq.1]
    simp [extend_index_length]
    omega

theorem get_entity_by_id_merge_aligned_wit :
    ((get_entity_by_id_merge
        ⟨some "E", none, ["t1"], [⟨"temp", [some "1"]⟩]⟩
        [⟨some "E", none, ["t2", "t3"], [⟨"temp", [some "2", some "3"]⟩]⟩]
      ).index.length = 3)
    ∧ (get_entity_by_id_merge
        ⟨some "E", none, ["t1"], [⟨"temp", [some "1"]⟩]⟩
        [⟨some "E", none, ["t2", "t3"], [⟨"temp", [some "2", some "3"]⟩]⟩]
      ).aligned := by
  have h := get_entity_by_id_merge_aligned
    ⟨some "E", none, ["t1"], [⟨"temp", [some "1"]⟩]⟩
    [⟨some "E", none, ["t2", "t3"], [⟨"temp", [some "2", some "3"]⟩]⟩]
    (by decide) (by decide)
  exact ⟨h.1.trans (by decide), h.2⟩

lemma merge_chunk_step_length (res chunk : List TimeSeries) :
    (merge_chunk_step res chunk).length = res.length := by
  simp [merge_chunk_step]
  omega

lemma merge_chunk_step_getElem_lt (res chunk : List TimeSeries) (i : Nat)
    (a b : TimeSeries) (ha : res[i]? = some a) (hb : chunk[i]? = some b) :
    (merge_chunk_step res chunk)[i]? = some (TimeSeries.extend a b) := by
  have hia : i < res.length := by
    by_contra hc
    rw [List.getElem?_eq_none (by omega)] at ha
    exact Option.noConfusion ha
  have hib : i < chunk.length := by
    by_contra hc
    rw [List.getElem?_eq_none (by omega)] at hb
    exact Option.noConfusion hb
  rw [merge_chunk_step, List.getElem?_append,
    if_pos (by rw [List.length_zipWith]; omega),
    List.getElem?_zipWith', ha, hb]
  rfl

lemma merge_chunk_step_getElem_ge (res chunk : List TimeSeries) (i : Nat)
    (hge : chunk.length ≤ i) :
    (merge_chunk_step res chunk)[i]? = res[i]? := by
  by_cases hlt : i < res.length
  · rw [merge_chunk_step, List.getElem?_append,
      if_neg (by rw [List.length_zipWith]; omega),
      List.length_zipWith, List.getElem?_drop]
    congr 1
    omega
  · have h1 : res[i]? = none := List.getElem?_eq_none (by omega)
    have h2 : (merge_chunk_step res chunk)[i]? = none :=
      List.getElem?_eq_none (by rw [merge_chunk_step_length]; omega)
    rw [h1, h2]

/-- C5: the by-type page merge is purely positional: with no check of
entity identities, the running series at position i is extended by the
fragment at position i of the later chunk; consequently a later page
listing the same entities in the same order merges each series to the
combined length, while a reordered later page appends the samples to the
wrong series, without raising. -/
theorem get_entity_by_type_positional_merge :
    (∀ (res chunk : List TimeSeries) (i : Nat) (a b : TimeSeries),
        res[i]? = some a → chunk[i]? = some b →
        (merge_chunk_step res chunk)[i]? = some (TimeSeries.extend a b))
    ∧ (get_entity_by_type_merge
        [⟨some "E1", some "T", ["t1"], [⟨"temp", [some "1"]⟩]⟩,
         ⟨some "E2", some "T", ["t2"], [⟨"temp", [some "2"]⟩]⟩]
        [[⟨some "E1", some "T", ["t3"], [⟨"temp", [some "3"]⟩]⟩,
          ⟨some "E2", some "T", ["t4"], [⟨"temp", [some "4"]⟩]⟩]]
       = [⟨some "E1", some "T", ["t1", "t3"],
            [⟨"temp", [some "1", some "3"]⟩]⟩,
          ⟨some "E2", some "T", ["t2", "t4"],
            [⟨"temp", [some "2", some "4"]⟩]⟩])
    ∧ (get_entity_by_type_merge
        [⟨some "E1", some "T", ["t1"], [⟨"temp", [some "1"]⟩]⟩,
         ⟨some "E2", some "T", ["t2"], [⟨"temp", [some "2"]⟩]⟩]
        [[⟨some "E2", some "T", ["t4"], [⟨"temp", [some "4"]⟩]⟩,
          ⟨some "E1", some "T", ["t3"], [⟨"temp", [some "3"]⟩]⟩]]
       = [⟨some "E1", some "T", ["t1", "t4"],
            [⟨"temp", [some "1", some "4"]⟩]⟩,
          ⟨some "E2", some "T", ["t2", "t3"],
            [⟨"temp", [some "2", some "3"]⟩]⟩]) :=
  ⟨merge_chunk_step_getElem_lt, rfl, rfl⟩

theorem get_entity_by_type_positional_merge_wit :
    (merge_chunk_step
        [⟨some "A", none, ["x"], []⟩] [⟨some "B", none, ["y"], []⟩])[0]?
      = some (TimeSeries.extend
          ⟨some "A", none, ["x"], []⟩ ⟨some "B", none, ["y"], []⟩) :=
  get_entity_by_type_positional_merge.1 _ _ 0 _ _ rfl rfl

/-- C10: when a later page chunk has a different number of per-entity
fragments than the running list, the zip pairs only the first min(m, n)
positions: the merged list keeps the length of the running list, running
series beyond the chunk length are left unchanged (surplus chunk fragments
are discarded since the result has no position for them), each paired
position is extended, and no error is raised (the merge is total). -/
theorem merge_chunk_zip_truncation (res chunk : List TimeSeries) :
    (merge_chunk_step res chunk).length = res.length
    ∧ (∀ i, chunk.length ≤ i → (merge_chunk_step res chunk)[i]? = res[i]?)
    ∧ (∀ (i : Nat) (a b : TimeSeries), res[i]? = some a → chunk[i]? = some b →
        (merge_chunk_step res chunk)[i]? = some (TimeSeries.extend a b)) :=
  ⟨merge_chunk_step_length res chunk,
   fun i h => merge_chunk_step_getElem_ge res chunk i h,
   fun i a b ha hb => merge_chunk_step_getElem_lt res chunk i a b ha hb⟩

theorem merge_chunk_zip_truncation_wit :
    (merge_chunk_step [⟨none, none, ["p"], []⟩, ⟨none, none, ["q"], []⟩]
        [⟨none, none, ["r"], []⟩]).length = 2
    ∧ (merge_chunk_step [⟨none, none, ["p"], []⟩, ⟨none, none, ["q"], []⟩]
        [⟨none, none, ["r"], []⟩])[1]? = some ⟨none, none, ["q"], []⟩
    ∧ (merge_chunk_step [⟨none, none, ["p"], []⟩, ⟨none, none, ["q"], []⟩]
        [⟨none, none, ["r"], []⟩])[0]?
      = some (TimeSeries.extend ⟨none, none, ["p"], []⟩
          ⟨none, none, ["r"], []⟩) := by
  have h := merge_chunk_zip_truncation
    [⟨none, none, ["p"], []⟩, ⟨none, none, ["q"], []⟩]
    [⟨none, none, ["r"], []⟩]
  exact ⟨h.1, h.2.1 1 (by simp), h.2.2 0 _ _ rfl rfl⟩

/-- Modelled from the spec: the TimeSeriesHeader record of the data model
(filip.models.ngsi_v2.timeseries, not under src): entity id, entity type
and a first/last-timestamp index summary. -/
structure TimeSeriesHeader where
  entityId : String
  entityType : String
  index : List String
deriving DecidableEq

/-- An error visible to a caller of get_entities: either the re-raised
request error of the page loop, or the index error raised when reading the
first element of an empty collected list. -/
inductive ClientError where
  | http (status : Nat) (errorField : Option String)
  | indexError
deriving DecidableEq

/-- Embeds QuantumLeapClient.get_entities (quantumleap.py lines 418-425):
runs the full page loop, then parses and returns only the first collected
page body as the list of TimeSeriesHeader.  Parsing of the already-decoded
body is modelled as the identity; reading the first element of an empty
collected list is the index error. -/
def get_entities (fetch : Nat → PageResult (List TimeSeriesHeader))
    (limit offset : Nat) : Except ClientError (List TimeSeriesHeader) :=
  match (query_builder fetch limit offset []).result with
  | .error e => .error (.http e.status e.errorField)
  | .ok [] => .error .indexError
  | .ok (p :: _) => .ok p

/-- C9: get_entities runs the pagination loop but returns only the first
collected page body as the list of headers; every header of the returned
list belongs to the first page, so headers contained only in later pages
are absent from the returned list. -/
theorem get_entities_first_page_only
    (fetch : Nat → PageResult (List TimeSeriesHeader)) (limit offset : Nat)
    (p : List TimeSeriesHeader) (rest : List (List TimeSeriesHeader))
    (h : (query_builder fetch limit offset []).result = .ok (p :: rest)) :
    get_entities fetch limit offset = .ok p
    ∧ ∀ q, get_entities fetch limit offset = .ok q →
        ∀ x, x ∈ q → x ∈ p := by
  constructor
  · simp only [get_entities, h]
  · intro q hq x hx
    simp only [get_entities, h, Except.ok.injEq] at hq
    rw [hq]
    exact hx

theorem get_entities_first_page_only_wit :
    get_entities
      (fun o => if o = 0 then PageResult.ok [⟨"E1", "T", []⟩]
                else PageResult.ok [⟨"E2", "T", []⟩]) 10 0
      = .ok [⟨"E1", "T", []⟩] :=
  (get_entities_first_page_only
    (fun o => if o = 0 then PageResult.ok [⟨"E1", "T", []⟩]
              else PageResult.ok [⟨"E2", "T", []⟩]) 10 0
    [⟨"E1", "T", []⟩] [[⟨"E2", "T", []⟩]]
    (by simp [query_builder, max_entries_per_request])).1

/-- The serialization symbols of the seven members of the Operator
enumeration of simple_query_language.py, in declaration order. -/
def operator_list : List String := ["==", "!=", ">", "<", ">=", "<=", "~="]

/-- The four numeric-only operator symbols: those that are not EQUAL,
UNEQUAL or MATCH_PATTERN. -/
def numeric_only (op : String) : Bool :=
  op = ">" || op = "<" || op = ">=" || op = "<="

/-- Recognizes a nonempty ASCII digit run in which an underscore may
stand only between two digits, as accepted inside a Python float
literal. -/
def digitRun : List Char → Bool
  | [] => false
  | [c] => c.isDigit
  | c :: '_' :: rest => c.isDigit && digitRun rest
  | c :: rest => c.isDigit && digitRun rest

/-- Splits a character list at the first character satisfying p, returning
the part before it and, when found, the part after it. -/
def splitOnChar (p : Char → Bool) : List Char → List Char × Option (List Char)
  | [] => ([], none)
  | c :: rest =>
    if p c then ([], some rest)
    else
      let r := splitOnChar p rest
      (c :: r.1, r.2)

/-- Drops one leading plus or minus sign. -/
def stripSign : List Char → List Char
  | '+' :: rest => rest
  | '-' :: rest => rest
  | cs => cs

/-- Recognizes the case-insensitive inf, infinity and nan forms accepted
by the Python float constructor. -/
def isInfNan (cs : List Char) : Bool :=
  let l := cs.map Char.toLower
  l = ['i', 'n', 'f'] || l = ['i', 'n', 'f', 'i', 'n', 'i', 't', 'y']
    || l = ['n', 'a', 'n']

/-- Recognizes the mantissa of a Python float literal: an integer digit
run, a digit run with a trailing point, a digit run point digit run, or a
point followed by a digit run. -/
def isMantissa (cs : List Char) : Bool :=
  match splitOnChar (fun c => c = '.') cs with
  | (ip, none) => digitRun ip
  | (ip, some fp) =>
      (digitRun ip && (fp.isEmpty || digitRun fp))
        || (ip.isEmpty && digitRun fp)

/-- Embeds the float builtin call of the Statement numeric validation
(simple_query_language.py line 122): whether the Python float constructor
accepts the string.  Modelled for ASCII input: optional surrounding
whitespace, an optional sign, then inf, infinity, nan, or a mantissa with
an optional exponent whose digit runs may contain underscores between
digits. -/
def pyFloatOk (s : String) : Bool :=
  let cs := ((s.toList.dropWhile Char.isWhitespace).reverse.dropWhile
    Char.isWhitespace).reverse
  let body := stripSign cs
  isInfNan body ||
    (match splitOnChar (fun c => c = 'e' || c = 'E') body with
     | (m, none) => isMantissa m
     | (m, some ex) => isMantissa m && digitRun (stripSign ex))

example : pyFloatOk "42" = true := by decide
example : pyFloatOk "-3.5e-2" = true := by decide
example : pyFloatOk "warm" = false := by decide
example : pyFloatOk "" = false := by decide
example : pyFloatOk " inf" = true := by decide
example : pyFloatOk "1_0.5" = true := by decide
example : pyFloatOk "1__0" = false := by decide

/-- The validated statement triple of simple_query_language.py: a tuple of
left hand side, operator string and right hand side. -/
structure Statement where
  left_hand_side : String
  operator : String
  right_hand_side : String
deriving DecidableEq

/-- Embeds the Statement constructor (simple_query_language.py lines
112-128): asserts that the operator string is one of the seven recognized
symbols, and, for an operator other than EQUAL, UNEQUAL and MATCH_PATTERN,
that the float builtin accepts the right hand side; on success the triple
is built unchanged. -/
def Statement.make (lhs op rhs : String) : Except String Statement :=
  if op ∈ operator_list then
    if op = "==" || op = "!=" || op = "~=" then
      .ok ⟨lhs, op, rhs⟩
    else if pyFloatOk rhs then
      .ok ⟨lhs, op, rhs⟩
    else
      .error "Combination of operator and right hand side is not allowed"
  else
    .error "No valid operator string"

/-- Embeds Statement's string conversion (simple_query_language.py lines
130-131): the three components concatenated with no separators. -/
def Statement.serialize (s : Statement) : String :=
  s.left_hand_side ++ s.operator ++ s.right_hand_side

/-- Coerces each raw triple into a validated Statement, in order,
re-raising the first validation error (simple_query_language.py lines
148-150). -/
def coerce_statements :
    List (String × String × String) → Except String (List Statement)
  | [] => .ok []
  | t :: rest =>
    match Statement.make t.1 t.2.1 t.2.2 with
    | .error e => .error e
    | .ok s =>
      match coerce_statements rest with
      | .error e => .error e
      | .ok srest => .ok (s :: srest)

/-- Keeps the first occurrence of each statement, dropping later
structural duplicates; seen holds the statements already emitted. -/
def dedupAux (seen : List Statement) :
    List Statement → List Statement
  | [] => []
  | s :: rest =>
    if s ∈ seen then dedupAux seen rest
    else s :: dedupAux (s :: seen) rest

/-- Models the set() deduplication of create_query
(simple_query_language.py line 151): structurally equal statements
collapse to one.  The unordered Python set is determinized to
first-occurrence order. -/
def dedupStatements (l : List Statement) : List Statement :=
  dedupAux [] l

/-- Embeds create_query (simple_query_language.py lines 134-152) on a list
argument: coerces raw triples into validated Statements, deduplicates
structurally equal statements, and joins the serialized forms with the
character ';'. -/
def create_query (statements : List (String × String × String)) :
    Except String String :=
  match coerce_statements statements with
  | .error e => .error e
  | .ok sts =>
    .ok (String.intercalate ";" ((dedupStatements sts).map
      Statement.serialize))

lemma numeric_only_of_mem (op : String) (hmem : op ∈ operator_list)
    (hops : (op = "==" || op = "!=" || op = "~=") = false) :
    numeric_only op = true := by
  simp only [operator_list, List.mem_cons, List.not_mem_nil, or_false]
    at hmem
  rcases hmem with rfl | rfl | rfl | rfl | rfl | rfl | rfl <;>
    revert hops <;> decide

lemma not_numeric_only_of_ops (op : String)
    (hops : (op = "==" || op = "!=" || op = "~=") = true) :
    numeric_only op = false := by
  simp only [Bool.or_eq_true, decide_eq_true_eq] at hops
  rcases hops with (rfl | rfl) | rfl <;> decide

/-- C7: Statement construction fails with a validation error exactly when
the operator is not one of the seven recognized symbols, or when the
operator is one of the four numeric-only operators and the float builtin
rejects the right hand side; a successfully built statement serializes as
left hand side, operator symbol and right hand side concatenated with no
separators; in particular temperature > 42 succeeds and
temperature > warm fails. -/
theorem statement_validation_iff :
    (∀ lhs op rhs : String,
      (∃ st, Statement.make lhs op rhs = .ok st)
        ↔ (op ∈ operator_list
            ∧ (numeric_only op = true → pyFloatOk rhs = true)))
    ∧ (∀ (lhs op rhs : String) (st : Statement),
        Statement.make lhs op rhs = .ok st →
        st.serialize = lhs ++ op ++ rhs)
    ∧ Statement.make "temperature" ">" "42"
        = .ok ⟨"temperature", ">", "42"⟩
    ∧ Statement.make "temperature" ">" "warm"
        = .error "Combination of operator and right hand side is not allowed"
    := by
  refine ⟨?_, ?_, rfl, rfl⟩
  · intro lhs op rhs
    constructor
    · rintro ⟨st, hst⟩
      rw [Statement.make] at hst
      split_ifs at hst with h1 h2 h3
      · exact ⟨h1, fun hnum => absurd (not_numeric_only_of_ops op (by simpa using h2)) (by simp [hnum])⟩
      · exact ⟨h1, fun _ => by simpa using h3⟩
    · rintro ⟨hmem, himp⟩
      rw [Statement.make, if_pos hmem]
      by_cases hops : (op = "==" || op = "!=" || op = "~=") = true
      · rw [if_pos (by simpa using hops)]
        exact ⟨_, rfl⟩
      · have hnum : numeric_only op = true :=
          numeric_only_of_mem op hmem (by simpa using hops)
        have hfl := himp hnum
        rw [if_neg (by simpa using hops), if_pos (by simpa using hfl)]
        exact ⟨_, rfl⟩
  · intro lhs op rhs st hst
    rw [Statement.make] at hst
    split_ifs at hst
    · cases hst
      rfl
    · cases hst
      rfl

theorem statement_validation_iff_wit :
    (∃ st, Statement.make "x" ">" "3.5" = .ok st)
    ∧ Statement.serialize ⟨"x", ">", "3.5"⟩ = "x" ++ ">" ++ "3.5" := by
  constructor
  · exact (statement_validation_iff.1 "x" ">" "3.5").mpr
      ⟨by decide, fun _ => by decide⟩
  · exact statement_validation_iff.2.1 "x" ">" "3.5" ⟨"x", ">", "3.5"⟩ rfl

/-- C6: create_query coerces raw triples into validated Statements,
collapses structurally equal triples to one statement, and joins the
serialized forms with ';': a list holding the same valid triple twice
yields that statement's serialization exactly once, and the two distinct
example triples yield both serializations joined by ';' (in the
first-occurrence order of this determinization of the unordered set). -/
theorem create_query_dedup_join :
    (∀ (lhs op rhs : String) (st : Statement),
        Statement.make lhs op rhs = .ok st →
        create_query [(lhs, op, rhs), (lhs, op, rhs)] = .ok st.serialize)
    ∧ create_query [("a", "==", "1"), ("a", "==", "1")] = .ok "a==1"
    ∧ create_query [("a", "==", "1"), ("b", "!=", "2")] = .ok "a==1;b!=2"
    := by
  refine ⟨?_, rfl, rfl⟩
  intro lhs op rhs st hst
  simp [create_query, coerce_statements, hst, dedupStatements, dedupAux]
  rfl

theorem create_query_dedup_join_wit :
    create_query [("c", "<", "7"), ("c", "<", "7")]
      = .ok (Statement.serialize ⟨"c", "<", "7"⟩) :=
  create_query_dedup_join.1 "c" "<" "7" ⟨"c", "<", "7"⟩ rfl

/-- Embeds the throttling handling of QuantumLeapClient.post_subscription
(quantumleap.py lines 194-197) up to the network call: a Python-truthy
(nonzero) throttling value below 1 raises a TypeError locally before any
request; otherwise the call proceeds to the network request, carrying the
throttling params entry exactly when the value is truthy.  The ok value
is the throttling entry of the request params. -/
def post_subscription_throttling (throttling : Option Int) :
    Except String (Option Int) :=
  match throttling with
  | none => .ok none
  | some t =>
    if t ≠ 0 then
      if t < 1 then .error "Throttling must be a positive integer"
      else .ok (some t)
    else .ok none

/-- C8 counterexample: post_subscription called with throttling 0, a
non-positive value, raises no local validation error: zero is
Python-falsy, so the check is skipped and the call proceeds to the
network request with no throttling parameter. -/
theorem post_subscription_zero_throttling_cex :
    post_subscription_throttling (some 0) = .ok none := rfl

/-- C8 amended: for every negative throttling value post_subscription
raises the validation error locally, before any network request; a
throttling of zero is treated as unset and raises no error. -/
theorem post_subscription_negative_throttling (t : Int) (h : t < 0) :
    post_subscription_throttling (some t)
      = .error "Throttling must be a positive integer" := by
  simp only [post_subscription_throttling]
  rw [if_pos (by omega), if_pos (by omega)]

theorem post_subscription_negative_throttling_wit :
    post_subscription_throttling (some (-1))
      = .error "Throttling must be a positive integer" :=
  post_subscription_negative_throttling (-1) (by omega)
